import Mathlib

/-!
Verification of the `bore` command-line frontend (`src/main.rs`).

The file shallowly embeds the CLI layer: the `Command` argument data model
with clap's declared defaults, and the `run`/`main` control flow.  The
external `bore_cli` library (`Client::new`, `Client::listen`, `Server::new`,
`Server::listen`) and the standard-library `IpAddr` parser are external
collaborators; they are modelled as a parameter record `ExtLib`, and `run`
additionally records the calls it makes into them as a trace, so that
pre-flight behaviour ("no network activity before validation") is statable.
The authentication handshake of the relay, which is not part of this
source file, is modelled from the spec where a claim needs it.
-/

/-- Rust `RangeInclusive<u16>` as built by `min_port..=max_port`.
Ports are u16 values, embedded as `Nat`; the code only compares them. -/
structure RangeInclusive where
  start : Nat
  stop : Nat
  deriving Repr, DecidableEq

/-- Rust `RangeInclusive::is_empty` on a freshly built range:
true iff `!(start <= end)`. -/
def RangeInclusive.isEmpty (r : RangeInclusive) : Bool :=
  !(decide (r.start ≤ r.stop))

/-- Rust `RangeInclusive::contains`. -/
def RangeInclusive.contains (r : RangeInclusive) (p : Nat) : Bool :=
  decide (r.start ≤ p) && decide (p ≤ r.stop)

/-- Fields of `Command::Local` (src/main.rs lines 16-36). -/
structure LocalArgs where
  local_port : Nat
  local_host : String
  «to» : String
  port : Nat
  secret : Option String
  deriving Repr, DecidableEq

/-- Fields of `Command::Server` (src/main.rs lines 39-59). -/
structure ServerArgs where
  min_port : Nat
  max_port : Nat
  secret : Option String
  control_addr : String
  tunnels_addr : String
  deriving Repr, DecidableEq

/-- The `Command` subcommand enum (src/main.rs lines 13-60). -/
inductive Command where
  | Local (args : LocalArgs)
  | Server (args : ServerArgs)
  deriving Repr, DecidableEq

/-- The top-level `Args` struct: just a subcommand. -/
structure Args where
  command : Command
  deriving Repr, DecidableEq

/-- Clap application of `default_value` attributes for `Command::Local`:
`local_host` defaults to "localhost", `port` defaults to 0; `local_port`,
`to` and `secret` have no defaults. -/
def mkLocal (local_port : Nat) (local_host : Option String) («to» : String)
    (port : Option Nat) (secret : Option String) : Command :=
  .Local
    { local_port := local_port
      local_host := local_host.getD "localhost"
      «to» := «to»
      port := port.getD 0
      secret := secret }

/-- Clap application of `default_value` attributes for `Command::Server`:
`min_port` defaults to 1024, `max_port` to 65535, `control_addr` and
`tunnels_addr` both to "0.0.0.0"; `secret` has no default. -/
def mkServer (min_port max_port : Option Nat) (secret : Option String)
    (control_addr tunnels_addr : Option String) : Command :=
  .Server
    { min_port := min_port.getD 1024
      max_port := max_port.getD 65535
      secret := secret
      control_addr := control_addr.getD "0.0.0.0"
      tunnels_addr := tunnels_addr.getD "0.0.0.0" }

/-- Outcome of `run`: normal return, an error propagated by `?` to `main`,
a clap `.error(ErrorKind::InvalidValue, msg).exit()` process exit, or a
panic (which would model an `.unwrap()` on an `Err`). -/
inductive RunResult (ε : Type u) where
  | ok
  | err (e : ε)
  | configExit (msg : String)
  | panicked
  deriving Repr, DecidableEq

/-- Whether a `RunResult` is the panic outcome. -/
def RunResult.isPanicked : RunResult ε → Bool
  | .panicked => true
  | _ => false

/-- Whether a `RunResult` is a clap configuration-error exit. -/
def RunResult.isConfigExit : RunResult ε → Bool
  | .configExit _ => true
  | _ => false

/-- A call made by `run` into the external `bore_cli` library, with the
arguments passed.  `ι` is the representation of a parsed `IpAddr`. -/
inductive Call (ι : Type v) where
  | clientNew (local_host : String) (local_port : Nat) («to» : String)
      (port : Nat) (secret : Option String)
  | clientListen
  | serverNew (port_range : RangeInclusive) (secret : Option String)
      (control tunnels : ι)
  | serverListen

/-- Whether a `Call` is a `Client::new` invocation. -/
def Call.isClientNew : Call ι → Bool
  | .clientNew _ _ _ _ _ => true
  | _ => false

/-- Whether a `Call` is a `Client::listen` invocation. -/
def Call.isClientListen : Call ι → Bool
  | .clientListen => true
  | _ => false

/-- Whether a `Call` is a `Server::listen` invocation. -/
def Call.isServerListen : Call ι → Bool
  | .serverListen => true
  | _ => false

/-- The secret argument carried by a `Call`, if it is a constructor call. -/
def Call.secretArg : Call ι → Option (Option String)
  | .clientNew _ _ _ _ s => some s
  | .serverNew _ s _ _ => some s
  | _ => none

/-- The external collaborators of `run`: the `bore_cli` library entry
points and `str::parse::<IpAddr>`.  `ε` is the error type (`anyhow::Error`),
`ι` a parsed `IpAddr`, `κ` a `Client`, `σ` a `Server`. -/
structure ExtLib (ε : Type u) (ι : Type v) (κ : Type w) (σ : Type x) where
  parseIp : String → Option ι
  clientNew : String → Nat → String → Nat → Option String → Except ε κ
  clientListen : κ → Except ε Unit
  serverNew : RangeInclusive → Option String → ι → ι → σ
  serverListen : σ → Except ε Unit

/-- The body of `run` (src/main.rs lines 62-110), with the external
library calls recorded in order in a trace.  The `Server` arm mirrors the
source exactly: build `port_range`, exit on `is_empty`; parse
`control_addr`, exit on `is_err`; parse `tunnels_addr`, exit on `is_err`;
then `Server::new(...)` on the two unwrapped addresses and `.listen()`.
The final wildcard arm is the embedding of the two `.unwrap()` calls: it
is reached only if an `unwrap` would panic. -/
def run (ext : ExtLib ε ι κ σ) : Command → RunResult ε × List (Call ι)
  | .Local a =>
    match ext.clientNew a.local_host a.local_port a.«to» a.port a.secret with
    | .error e =>
      (.err e, [.clientNew a.local_host a.local_port a.«to» a.port a.secret])
    | .ok client =>
      match ext.clientListen client with
      | .error e =>
        (.err e, [.clientNew a.local_host a.local_port a.«to» a.port a.secret,
                  .clientListen])
      | .ok _ =>
        (.ok, [.clientNew a.local_host a.local_port a.«to» a.port a.secret,
               .clientListen])
  | .Server a =>
    let port_range : RangeInclusive := ⟨a.min_port, a.max_port⟩
    if port_range.isEmpty then
      (.configExit "port range is empty", [])
    else
      let ipaddr_control := ext.parseIp a.control_addr
      if ipaddr_control.isNone then
        (.configExit "invalid ip address for control server", [])
      else
        let ipaddr_tunnels := ext.parseIp a.tunnels_addr
        if ipaddr_tunnels.isNone then
          (.configExit "invalid ip address for tunnel connections", [])
        else
          match ipaddr_control, ipaddr_tunnels with
          | some ipc, some ipt =>
            match ext.serverListen (ext.serverNew port_range a.secret ipc ipt) with
            | .error e =>
              (.err e, [.serverNew port_range a.secret ipc ipt, .serverListen])
            | .ok _ =>
              (.ok, [.serverNew port_range a.secret ipc ipt, .serverListen])
          | _, _ => (.panicked, [])

/-- The body of `main` (src/main.rs lines 112-115): logging initialization
is an external no-op; the result of `run` on the parsed command is returned
as the process result. -/
def mainRs (ext : ExtLib ε ι κ σ) (args : Args) : RunResult ε × List (Call ι) :=
  run ext args.command

/-- Modelled from the spec: the relay→client control-message vocabulary
(`Hello{assigned_port}`, `Challenge{nonce}`, `Heartbeat`, `Connection{id}`,
`Error{message}`); the protocol implementation lives in the external
`bore_cli` crate, not under this repository's `src/`. -/
inductive RelayMsg where
  | hello (assigned_port : Nat)
  | challenge (nonce : Nat)
  | heartbeat
  | connection (id : Nat)
  | error (message : String)
  deriving Repr, DecidableEq

/-- Modelled from the spec: the client→relay control-message vocabulary
(`Hello{requested_port}`, `Accept{connection_id}`, `Authenticate{tag}`). -/
inductive ClientMsg where
  | hello (requested_port : Nat)
  | accept (connection_id : Nat)
  | authenticate (tag : Nat)
  deriving Repr, DecidableEq

/-- Whether a relay message is a `Hello` reply (what makes the client
`Registered`). -/
def RelayMsg.isHello : RelayMsg → Bool
  | .hello _ => true
  | _ => false

/-- Whether a relay message is a `Challenge`. -/
def RelayMsg.isChallenge : RelayMsg → Bool
  | .challenge _ => true
  | _ => false

/-- Modelled from the spec: the relay-session states
`AwaitingHello → (optional) AwaitingAuth → Serving → Closed` (spec 4.5);
`awaitingAuth` remembers the issued nonce and the requested port. -/
inductive RelayState where
  | awaitingHello
  | awaitingAuth (nonce requested_port : Nat)
  | serving (port : Nat)
  | closed
  deriving Repr, DecidableEq

/-- Whether a relay-session state is `Serving`. -/
def RelayState.isServing : RelayState → Bool
  | .serving _ => true
  | _ => false

/-- Whether a client message is a correct authentication proof: an
`Authenticate{tag}` whose tag is the keyed MAC of the nonce under the
secret (spec 4.2: "the proof is a keyed message-authentication code over
the nonce using the shared secret as key").  `mac` is the MAC function,
kept as a parameter. -/
def presentsProof (s : String) (mac : String → Nat → Nat) (nonce : Nat) :
    ClientMsg → Bool
  | .authenticate tag => mac s nonce == tag
  | _ => false

/-- Modelled from the spec: one step of the relay-session handshake state
machine (spec 4.5).  In `AwaitingHello`, a `Hello` either triggers a
`Challenge{nonce}` (secret configured) or goes straight to allocation; in
`AwaitingAuth`, an `Authenticate{tag}` is verified against the MAC and a
failure closes the session with a best-effort `Error`; allocation failure
(`alloc req = none`, i.e. `NoFreePort`) sends `Error` and closes; success
replies `Hello{assigned_port}` and enters `Serving`.  Any unexpected
message is a protocol error, fatal to the session. -/
def relayStep (secret : Option String) (mac : String → Nat → Nat)
    (nonce : Nat) (alloc : Nat → Option Nat) :
    RelayState → ClientMsg → RelayState × List RelayMsg
  | .awaitingHello, .hello req =>
    match secret with
    | some _ => (.awaitingAuth nonce req, [.challenge nonce])
    | none =>
      match alloc req with
      | some p => (.serving p, [.hello p])
      | none => (.closed, [.error "no free port"])
  | .awaitingAuth n req, .authenticate tag =>
    match secret with
    | some s =>
      if mac s n == tag then
        match alloc req with
        | some p => (.serving p, [.hello p])
        | none => (.closed, [.error "no free port"])
      else (.closed, [.error "invalid authentication"])
    | none => (.closed, [.error "unexpected authenticate"])
  | .serving p, _ => (.serving p, [])
  | .closed, _ => (.closed, [])
  | _, _ => (.closed, [.error "unexpected message"])

/-- Modelled from the spec: the relay session consuming a sequence of
client control messages from a given state, collecting the relay's
replies in order. -/
def relayRun (secret : Option String) (mac : String → Nat → Nat)
    (nonce : Nat) (alloc : Nat → Option Nat) :
    RelayState → List ClientMsg → RelayState × List RelayMsg
  | st, [] => (st, [])
  | st, m :: ms =>
    let step := relayStep secret mac nonce alloc st m
    let rest := relayRun secret mac nonce alloc step.1 ms
    (rest.1, step.2 ++ rest.2)

/-- A concrete external library whose calls all fail and whose parser
rejects every string; used to evaluate theorems at concrete inputs. -/
def extRefuse : ExtLib Nat Unit Unit Unit where
  parseIp _ := none
  clientNew _ _ _ _ _ := .error 7
  clientListen _ := .error 8
  serverNew _ _ _ _ := ()
  serverListen _ := .error 9

/-- A concrete external library whose calls all succeed and whose parser
accepts every string; used to evaluate theorems at concrete inputs. -/
def extAccept : ExtLib Nat Unit Unit Unit where
  parseIp _ := some ()
  clientNew _ _ _ _ _ := .ok ()
  clientListen _ := .ok ()
  serverNew _ _ _ _ := ()
  serverListen _ := .ok ()

/-- A concrete external library where construction succeeds but both
`listen` calls fail; used to evaluate error-propagation theorems. -/
def extListenFail : ExtLib Nat Unit Unit Unit where
  parseIp _ := some ()
  clientNew _ _ _ _ _ := .ok ()
  clientListen _ := .error 21
  serverNew _ _ _ _ := ()
  serverListen _ := .error 22

section RunLemmas

variable {ε : Type u} {ι : Type v} {κ : Type w} {σ : Type x}

/-- With an inverted range, `run` exits at the empty-range check, before
any external call. -/
lemma run_server_empty (ext : ExtLib ε ι κ σ) (a : ServerArgs)
    (h : a.max_port < a.min_port) :
    run ext (.Server a) = (.configExit "port range is empty", []) := by
  simp [run, RangeInclusive.isEmpty, Nat.not_le.mpr h]

/-- With a valid range and an unparsable control address, `run` exits at
the control-address check, before any external call. -/
lemma run_server_bad_control (ext : ExtLib ε ι κ σ) (a : ServerArgs)
    (hle : a.min_port ≤ a.max_port) (hc : ext.parseIp a.control_addr = none) :
    run ext (.Server a) =
      (.configExit "invalid ip address for control server", []) := by
  simp [run, RangeInclusive.isEmpty, hle, hc]

/-- With a valid range, a parsable control address and an unparsable
tunnels address, `run` exits at the tunnels-address check, before any
external call. -/
lemma run_server_bad_tunnels (ext : ExtLib ε ι κ σ) (a : ServerArgs)
    (hle : a.min_port ≤ a.max_port) {ipc : ι}
    (hc : ext.parseIp a.control_addr = some ipc)
    (ht : ext.parseIp a.tunnels_addr = none) :
    run ext (.Server a) =
      (.configExit "invalid ip address for tunnel connections", []) := by
  simp [run, RangeInclusive.isEmpty, hle, hc, ht]

/-- With all three checks passing, `run` constructs the `Server` on the
inclusive range and the two parsed addresses and calls `listen`. -/
lemma run_server_listen (ext : ExtLib ε ι κ σ) (a : ServerArgs)
    (hle : a.min_port ≤ a.max_port) {ipc ipt : ι}
    (hc : ext.parseIp a.control_addr = some ipc)
    (ht : ext.parseIp a.tunnels_addr = some ipt) :
    run ext (.Server a) =
      (match ext.serverListen
          (ext.serverNew ⟨a.min_port, a.max_port⟩ a.secret ipc ipt) with
        | .error e =>
          (.err e, [.serverNew ⟨a.min_port, a.max_port⟩ a.secret ipc ipt,
                    .serverListen])
        | .ok _ =>
          (.ok, [.serverNew ⟨a.min_port, a.max_port⟩ a.secret ipc ipt,
                 .serverListen])) := by
  simp [run, RangeInclusive.isEmpty, hle, hc, ht]

end RunLemmas

section HandshakeLemmas

/-- With a configured secret and no correct proof among the client's
messages, the relay session never reaches `Serving` and never sends a
`Hello` reply, from any state that is not already `Serving` and whose
pending challenge (if any) carries the session nonce. -/
lemma relayRun_secret_not_serving (s : String) (mac : String → Nat → Nat)
    (nonce : Nat) (alloc : Nat → Option Nat) (msgs : List ClientMsg) :
    ∀ st : RelayState,
      (msgs.all fun m => !presentsProof s mac nonce m) = true →
      st.isServing = false →
      (∀ n r, st = .awaitingAuth n r → n = nonce) →
      (relayRun (some s) mac nonce alloc st msgs).1.isServing = false ∧
      ((relayRun (some s) mac nonce alloc st msgs).2.all
        fun m => !m.isHello) = true := by
  induction msgs with
  | nil =>
    intro st _ hst _
    exact ⟨by simpa [relayRun] using hst, by simp [relayRun]⟩
  | cons m ms ih =>
    intro st hall hst hauth
    rw [List.all_cons, Bool.and_eq_true] at hall
    obtain ⟨hm, hms⟩ := hall
    cases st with
    | awaitingHello =>
      cases m with
      | hello req =>
        obtain ⟨ih1, ih2⟩ := ih (.awaitingAuth nonce req) hms rfl
          (by intro n r h; injection h with h1 _; exact h1.symm)
        refine ⟨by simpa [relayRun, relayStep] using ih1, ?_⟩
        simp only [relayRun, relayStep]
        simpa [RelayMsg.isHello] using ih2
      | accept id =>
        obtain ⟨ih1, ih2⟩ := ih .closed hms rfl (by intro n r h; simp at h)
        refine ⟨by simpa [relayRun, relayStep] using ih1, ?_⟩
        simp only [relayRun, relayStep]
        simpa [RelayMsg.isHello] using ih2
      | authenticate tag =>
        obtain ⟨ih1, ih2⟩ := ih .closed hms rfl (by intro n r h; simp at h)
        refine ⟨by simpa [relayRun, relayStep] using ih1, ?_⟩
        simp only [relayRun, relayStep]
        simpa [RelayMsg.isHello] using ih2
    | awaitingAuth n r =>
      have hn : n = nonce := hauth n r rfl
      subst hn
      cases m with
      | hello req =>
        obtain ⟨ih1, ih2⟩ := ih .closed hms rfl (by intro n r h; simp at h)
        refine ⟨by simpa [relayRun, relayStep] using ih1, ?_⟩
        simp only [relayRun, relayStep]
        simpa [RelayMsg.isHello] using ih2
      | accept id =>
        obtain ⟨ih1, ih2⟩ := ih .closed hms rfl (by intro n r h; simp at h)
        refine ⟨by simpa [relayRun, relayStep] using ih1, ?_⟩
        simp only [relayRun, relayStep]
        simpa [RelayMsg.isHello] using ih2
      | authenticate tag =>
        have hmac : (mac s n == tag) = false := by
          simpa [presentsProof] using hm
        obtain ⟨ih1, ih2⟩ := ih .closed hms rfl (by intro n r h; simp at h)
        refine ⟨by simpa [relayRun, relayStep, hmac] using ih1, ?_⟩
        simp only [relayRun, relayStep]
        simpa [hmac, RelayMsg.isHello] using ih2
    | serving p => simp [RelayState.isServing] at hst
    | closed =>
      obtain ⟨ih1, ih2⟩ := ih .closed hms rfl (by intro n r h; simp at h)
      cases m with
      | hello req =>
        refine ⟨by simpa [relayRun, relayStep] using ih1, ?_⟩
        simp only [relayRun, relayStep]
        simpa [RelayMsg.isHello] using ih2
      | accept id =>
        refine ⟨by simpa [relayRun, relayStep] using ih1, ?_⟩
        simp only [relayRun, relayStep]
        simpa [RelayMsg.isHello] using ih2
      | authenticate tag =>
        refine ⟨by simpa [relayRun, relayStep] using ih1, ?_⟩
        simp only [relayRun, relayStep]
        simpa [RelayMsg.isHello] using ih2

/-- With no secret configured, the relay session never sends a
`Challenge`, from any state. -/
lemma relayRun_none_no_challenge (mac : String → Nat → Nat) (nonce : Nat)
    (alloc : Nat → Option Nat) (msgs : List ClientMsg) :
    ∀ st : RelayState,
      ((relayRun none mac nonce alloc st msgs).2.all
        fun m => !m.isChallenge) = true := by
  induction msgs with
  | nil => intro st; simp [relayRun]
  | cons m ms ih =>
    intro st
    cases st with
    | awaitingHello =>
      cases m with
      | hello req =>
        rcases halloc : alloc req with _ | p
        · simp only [relayRun, relayStep, halloc]
          simpa [RelayMsg.isChallenge] using ih .closed
        · simp only [relayRun, relayStep, halloc]
          simpa [RelayMsg.isChallenge] using ih (.serving p)
      | accept id =>
        simp only [relayRun, relayStep]
        simpa [RelayMsg.isChallenge] using ih .closed
      | authenticate tag =>
        simp only [relayRun, relayStep]
        simpa [RelayMsg.isChallenge] using ih .closed
    | awaitingAuth n r =>
      cases m with
      | hello req =>
        simp only [relayRun, relayStep]
        simpa [RelayMsg.isChallenge] using ih .closed
      | accept id =>
        simp only [relayRun, relayStep]
        simpa [RelayMsg.isChallenge] using ih .closed
      | authenticate tag =>
        simp only [relayRun, relayStep]
        simpa [RelayMsg.isChallenge] using ih .closed
    | serving p =>
      cases m <;>
        · simp only [relayRun, relayStep]
          simpa [RelayMsg.isChallenge] using ih (.serving p)
    | closed =>
      cases m <;>
        · simp only [relayRun, relayStep]
          simpa [RelayMsg.isChallenge] using ih .closed

end HandshakeLemmas

/-- Whether the secret argument recorded in a call (if it is a constructor
call) equals the given value. -/
def Call.secretIs (v : Option String) (c : Call ι) : Bool :=
  match c.secretArg with
  | some s => s == v
  | none => true

section TraceLemmas

variable {ε : Type u} {ι : Type v} {κ : Type w} {σ : Type x}

/-- Every constructor call made by the `Local` arm carries the
command-line secret unchanged. -/
lemma run_trace_secret_local (ext : ExtLib ε ι κ σ) (a : LocalArgs) :
    ((run ext (.Local a)).2.all (Call.secretIs a.secret)) = true := by
  rcases hc : ext.clientNew a.local_host a.local_port a.«to» a.port a.secret
    with e | c
  · simp [run, hc, Call.secretIs, Call.secretArg]
  · rcases hl : ext.clientListen c with e | u <;>
      simp [run, hc, hl, Call.secretIs, Call.secretArg]

/-- Every constructor call made by the `Server` arm carries the
command-line secret unchanged. -/
lemma run_trace_secret_server (ext : ExtLib ε ι κ σ) (b : ServerArgs) :
    ((run ext (.Server b)).2.all (Call.secretIs b.secret)) = true := by
  by_cases h : b.max_port < b.min_port
  · simp [run_server_empty ext b h]
  · have hle := Nat.not_lt.mp h
    rcases hc : ext.parseIp b.control_addr with _ | ipc
    · simp [run_server_bad_control ext b hle hc]
    · rcases ht : ext.parseIp b.tunnels_addr with _ | ipt
      · simp [run_server_bad_tunnels ext b hle hc ht]
      · rw [run_server_listen ext b hle hc ht]
        rcases hres : ext.serverListen
            (ext.serverNew ⟨b.min_port, b.max_port⟩ b.secret ipc ipt)
          with e | u <;> simp [hres, Call.secretIs, Call.secretArg]

end TraceLemmas

section Claims

variable {ε : Type u} {ι : Type v} {κ : Type w} {σ : Type x}

/-- Claim C1: the server subcommand exits with the "port range is empty"
configuration error, without any external library call, exactly when
`min_port > max_port`; and the empty-range check fails exactly when
`min_port ≤ max_port`, in which case startup proceeds. -/
theorem c1_empty_range_exit_iff (ext : ExtLib ε ι κ σ) (a : ServerArgs) :
    (((run ext (.Server a)).1 = .configExit "port range is empty" ∧
        (run ext (.Server a)).2 = []) ↔ a.max_port < a.min_port) ∧
    (RangeInclusive.isEmpty ⟨a.min_port, a.max_port⟩ = false ↔
        a.min_port ≤ a.max_port) := by
  refine ⟨?_, by simp [RangeInclusive.isEmpty]⟩
  by_cases h : a.max_port < a.min_port
  · simp [run_server_empty ext a h, h]
  · have hle := Nat.not_lt.mp h
    simp only [iff_false_intro h, iff_false]
    rintro ⟨h1, -⟩
    rcases hc : ext.parseIp a.control_addr with _ | ipc
    · rw [run_server_bad_control ext a hle hc] at h1
      simp at h1
    · rcases ht : ext.parseIp a.tunnels_addr with _ | ipt
      · rw [run_server_bad_tunnels ext a hle hc ht] at h1
        simp at h1
      · rw [run_server_listen ext a hle hc ht] at h1
        rcases hres : ext.serverListen
            (ext.serverNew ⟨a.min_port, a.max_port⟩ a.secret ipc ipt)
          with e | u <;> simp [hres] at h1

/-- Claim C2: an unparsable control or tunnels address makes the server
subcommand exit with a configuration error and an empty external-call
trace (no `Server::new`, no network activity); and the three pre-flight
checks fire in order — empty range first, then the control address, then
the tunnels address. -/
theorem c2_preflight_order (ext : ExtLib ε ι κ σ) (a : ServerArgs) :
    ((ext.parseIp a.control_addr = none ∨ ext.parseIp a.tunnels_addr = none) →
      (run ext (.Server a)).1.isConfigExit = true ∧
      (run ext (.Server a)).2 = []) ∧
    (a.max_port < a.min_port →
      run ext (.Server a) = (.configExit "port range is empty", [])) ∧
    (a.min_port ≤ a.max_port → ext.parseIp a.control_addr = none →
      run ext (.Server a) =
        (.configExit "invalid ip address for control server", [])) ∧
    (∀ ipc, a.min_port ≤ a.max_port →
      ext.parseIp a.control_addr = some ipc →
      ext.parseIp a.tunnels_addr = none →
      run ext (.Server a) =
        (.configExit "invalid ip address for tunnel connections", [])) := by
  refine ⟨?_, fun h => run_server_empty ext a h,
    fun hle hc => run_server_bad_control ext a hle hc,
    fun ipc hle hc ht => run_server_bad_tunnels ext a hle hc ht⟩
  intro hbad
  by_cases h : a.max_port < a.min_port
  · simp [run_server_empty ext a h, RunResult.isConfigExit]
  · have hle := Nat.not_lt.mp h
    rcases hc : ext.parseIp a.control_addr with _ | ipc
    · simp [run_server_bad_control ext a hle hc, RunResult.isConfigExit]
    · rcases hbad with hbad | hbad
      · rw [hc] at hbad; exact absurd hbad (by simp)
      · simp [run_server_bad_tunnels ext a hle hc hbad, RunResult.isConfigExit]

/-- Witness for C2 at concrete inputs: a rejected address exits with a
configuration error and an empty trace; an inverted range wins over a bad
address; the control-address check fires before the tunnels-address
check. -/
theorem c2_preflight_order_witness :
    ((run extRefuse (.Server ⟨1024, 65535, none, "x", "y"⟩)).1.isConfigExit
        = true ∧
      (run extRefuse (.Server ⟨1024, 65535, none, "x", "y"⟩)).2 = []) ∧
    run extRefuse (.Server ⟨2000, 1000, none, "x", "y"⟩) =
      (.configExit "port range is empty", []) ∧
    run extRefuse (.Server ⟨1024, 65535, none, "x", "y"⟩) =
      (.configExit "invalid ip address for control server", []) := by
  refine ⟨(c2_preflight_order extRefuse ⟨1024, 65535, none, "x", "y"⟩).1
      (Or.inl rfl),
    (c2_preflight_order extRefuse ⟨2000, 1000, none, "x", "y"⟩).2.1
      (by decide),
    (c2_preflight_order extRefuse ⟨1024, 65535, none, "x", "y"⟩).2.2.1
      (by decide) rfl⟩

end Claims

section Claims2

variable {ε : Type u} {ι : Type v} {κ : Type w} {σ : Type x}

/-- Claim C3: the CLI passes the optional secret unchanged to both
`Client::new` and `Server::new` (every constructor call in the trace
carries it); and, in the spec-modelled handshake, with a configured
secret a client that never presents a correct proof never reaches
`Serving` and is never sent the `Hello` reply that would make it
`Registered`, while with no secret configured the relay never sends a
`Challenge`. -/
theorem c3_secret_gating (ext : ExtLib ε ι κ σ) (a : LocalArgs)
    (b : ServerArgs) (s : String) (mac : String → Nat → Nat) (nonce : Nat)
    (alloc : Nat → Option Nat) (msgs : List ClientMsg) :
    ((run ext (.Local a)).2.all (Call.secretIs a.secret)) = true ∧
    ((run ext (.Server b)).2.all (Call.secretIs b.secret)) = true ∧
    ((msgs.all fun m => !presentsProof s mac nonce m) = true →
      (relayRun (some s) mac nonce alloc .awaitingHello msgs).1.isServing
          = false ∧
      ((relayRun (some s) mac nonce alloc .awaitingHello msgs).2.all
        fun m => !m.isHello) = true) ∧
    ((relayRun none mac nonce alloc .awaitingHello msgs).2.all
      fun m => !m.isChallenge) = true := by
  refine ⟨run_trace_secret_local ext a, run_trace_secret_server ext b,
    fun hall => relayRun_secret_not_serving s mac nonce alloc msgs
      .awaitingHello hall rfl (by intro n r h; simp at h),
    relayRun_none_no_challenge mac nonce alloc msgs .awaitingHello⟩

/-- Witness for C3 at concrete inputs: the secret `"hunter2"` is passed
through unchanged on both subcommands; a client sending `Hello` and a
wrong `Authenticate` tag is left short of `Serving` with no `Hello` reply;
with no secret the same exchange draws no `Challenge`. -/
theorem c3_secret_gating_witness :
    ((run extAccept
        (.Local ⟨3000, "localhost", "example.com", 0, some "hunter2"⟩)).2.all
      (Call.secretIs (some "hunter2"))) = true ∧
    ((run extAccept
        (.Server ⟨1024, 65535, some "hunter2", "c", "t"⟩)).2.all
      (Call.secretIs (some "hunter2"))) = true ∧
    ((relayRun (some "hunter2") (fun s n => s.length + n) 5
        (fun _ => some 1024) .awaitingHello
        [ClientMsg.hello 0, ClientMsg.authenticate 99]).1.isServing
        = false ∧
      ((relayRun (some "hunter2") (fun s n => s.length + n) 5
          (fun _ => some 1024) .awaitingHello
          [ClientMsg.hello 0, ClientMsg.authenticate 99]).2.all
        fun m => !m.isHello) = true) ∧
    ((relayRun none (fun s n => s.length + n) 5 (fun _ => some 1024)
        .awaitingHello [ClientMsg.hello 0, ClientMsg.authenticate 99]).2.all
      fun m => !m.isChallenge) = true := by
  have h := c3_secret_gating extAccept
    ⟨3000, "localhost", "example.com", 0, some "hunter2"⟩
    ⟨1024, 65535, some "hunter2", "c", "t"⟩
    "hunter2" (fun s n => s.length + n) 5 (fun _ => some 1024)
    [ClientMsg.hello 0, ClientMsg.authenticate 99]
  exact ⟨h.1, h.2.1, h.2.2.1 (by decide), h.2.2.2⟩

/-- Claim C4: the CLI retries nothing. An error from `Client::new`, from
`Client::listen`, or from `Server::listen` is returned as the result of
`run`; `main` returns `run`'s result unchanged; and no external call
appears more than once in any trace. -/
theorem c4_no_retry (ext : ExtLib ε ι κ σ) (a : LocalArgs) (b : ServerArgs)
    (e : ε) :
    (ext.clientNew a.local_host a.local_port a.«to» a.port a.secret
        = .error e →
      (run ext (.Local a)).1 = .err e) ∧
    (∀ c, ext.clientNew a.local_host a.local_port a.«to» a.port a.secret
        = .ok c →
      ext.clientListen c = .error e → (run ext (.Local a)).1 = .err e) ∧
    (∀ ipc ipt, b.min_port ≤ b.max_port →
      ext.parseIp b.control_addr = some ipc →
      ext.parseIp b.tunnels_addr = some ipt →
      ext.serverListen
          (ext.serverNew ⟨b.min_port, b.max_port⟩ b.secret ipc ipt)
        = .error e →
      (run ext (.Server b)).1 = .err e) ∧
    (∀ cmd, mainRs ext ⟨cmd⟩ = run ext cmd) ∧
    (∀ cmd : Command,
      (run ext cmd).2.countP Call.isClientNew ≤ 1 ∧
      (run ext cmd).2.countP Call.isClientListen ≤ 1 ∧
      (run ext cmd).2.countP Call.isServerListen ≤ 1) := by
  refine ⟨fun h => by simp [run, h],
    fun c hc hl => by simp [run, hc, hl],
    fun ipc ipt hle hc ht hres => by
      rw [run_server_listen ext b hle hc ht]; simp [hres],
    fun cmd => rfl, fun cmd => ?_⟩
  cases cmd with
  | Local a =>
    rcases hc : ext.clientNew a.local_host a.local_port a.«to» a.port a.secret
      with e | c
    · simp [run, hc, Call.isClientNew, Call.isClientListen,
        Call.isServerListen]
    · rcases hl : ext.clientListen c with e | u <;>
        simp [run, hc, hl, Call.isClientNew, Call.isClientListen,
          Call.isServerListen]
  | Server b =>
    by_cases h : b.max_port < b.min_port
    · simp [run_server_empty ext b h]
    · have hle := Nat.not_lt.mp h
      rcases hc : ext.parseIp b.control_addr with _ | ipc
      · simp [run_server_bad_control ext b hle hc]
      · rcases ht : ext.parseIp b.tunnels_addr with _ | ipt
        · simp [run_server_bad_tunnels ext b hle hc ht]
        · rw [run_server_listen ext b hle hc ht]
          rcases hres : ext.serverListen
              (ext.serverNew ⟨b.min_port, b.max_port⟩ b.secret ipc ipt)
            with e | u <;>
            simp [hres, Call.isClientNew, Call.isClientListen,
              Call.isServerListen]

/-- Witness for C4 at concrete inputs: a failing `Client::new` surfaces
its error; a failing `Client::listen` surfaces its error; a failing
`Server::listen` surfaces its error; `main` forwards `run`'s result; and
the trace of a failing client session contains one `Client::new` call. -/
theorem c4_no_retry_witness :
    (run extRefuse (.Local ⟨3000, "localhost", "example.com", 0, none⟩)).1
        = .err 7 ∧
    (run extListenFail
        (.Local ⟨3000, "localhost", "example.com", 0, none⟩)).1 = .err 21 ∧
    (run extListenFail (.Server ⟨1024, 65535, none, "c", "t"⟩)).1
        = .err 22 ∧
    mainRs extListenFail ⟨.Local ⟨3000, "localhost", "example.com", 0, none⟩⟩
        = run extListenFail
            (.Local ⟨3000, "localhost", "example.com", 0, none⟩) ∧
    (run extListenFail
        (.Local ⟨3000, "localhost", "example.com", 0, none⟩)).2.countP
      Call.isClientNew ≤ 1 := by
  refine ⟨(c4_no_retry extRefuse ⟨3000, "localhost", "example.com", 0, none⟩
      ⟨1024, 65535, none, "c", "t"⟩ 7).1 rfl,
    (c4_no_retry extListenFail ⟨3000, "localhost", "example.com", 0, none⟩
      ⟨1024, 65535, none, "c", "t"⟩ 21).2.1 () rfl rfl,
    (c4_no_retry extListenFail ⟨3000, "localhost", "example.com", 0, none⟩
      ⟨1024, 65535, none, "c", "t"⟩ 22).2.2.1 () () (by decide) rfl rfl rfl,
    (c4_no_retry extListenFail ⟨3000, "localhost", "example.com", 0, none⟩
      ⟨1024, 65535, none, "c", "t"⟩ 0).2.2.2.1 _,
    ((c4_no_retry extListenFail ⟨3000, "localhost", "example.com", 0, none⟩
      ⟨1024, 65535, none, "c", "t"⟩ 0).2.2.2.2 _).1⟩

/-- Claim C5: when all pre-flight checks pass, the very first external
call is `Server::new` on exactly the inclusive range
`min_port..=max_port`, and both endpoints are contained in that range —
in particular `min_port = max_port` is a valid single-port range. -/
theorem c5_inclusive_range (ext : ExtLib ε ι κ σ) (a : ServerArgs)
    (ipc ipt : ι) (hle : a.min_port ≤ a.max_port)
    (hc : ext.parseIp a.control_addr = some ipc)
    (ht : ext.parseIp a.tunnels_addr = some ipt) :
    (run ext (.Server a)).2.head? =
      some (.serverNew ⟨a.min_port, a.max_port⟩ a.secret ipc ipt) ∧
    RangeInclusive.contains ⟨a.min_port, a.max_port⟩ a.min_port = true ∧
    RangeInclusive.contains ⟨a.min_port, a.max_port⟩ a.max_port = true := by
  refine ⟨?_, by simp [RangeInclusive.contains, hle],
    by simp [RangeInclusive.contains, hle]⟩
  rw [run_server_listen ext a hle hc ht]
  rcases hres : ext.serverListen
      (ext.serverNew ⟨a.min_port, a.max_port⟩ a.secret ipc ipt)
    with e | u <;> simp [hres]

/-- Witness for C5 at the single-port range `[5000, 5000]`: the first
external call is `Server::new` on `5000..=5000`, and 5000 is contained
in the range. -/
theorem c5_inclusive_range_witness :
    (run extAccept (.Server ⟨5000, 5000, none, "c", "t"⟩)).2.head? =
      some (.serverNew ⟨5000, 5000⟩ none () ()) ∧
    RangeInclusive.contains ⟨5000, 5000⟩ 5000 = true ∧
    RangeInclusive.contains ⟨5000, 5000⟩ 5000 = true :=
  c5_inclusive_range extAccept ⟨5000, 5000, none, "c", "t"⟩ () ()
    (by decide) rfl rfl

end Claims2

/-- With a non-inverted range, `run` never produces the empty-range
configuration exit, whatever the addresses and the external library do. -/
lemma run_server_not_empty_exit {ε : Type u} {ι : Type v} {κ : Type w}
    {σ : Type x} (ext : ExtLib ε ι κ σ) (b : ServerArgs)
    (hle : b.min_port ≤ b.max_port) :
    ((run ext (.Server b)).1 = .configExit "port range is empty") ↔ False := by
  simp only [iff_false]
  intro h
  rcases hc : ext.parseIp b.control_addr with _ | ipc
  · rw [run_server_bad_control ext b hle hc] at h
    simp at h
  · rcases ht : ext.parseIp b.tunnels_addr with _ | ipt
    · rw [run_server_bad_tunnels ext b hle hc ht] at h
      simp at h
    · rw [run_server_listen ext b hle hc ht] at h
      rcases hres : ext.serverListen
          (ext.serverNew ⟨b.min_port, b.max_port⟩ b.secret ipc ipt)
        with e | u <;> simp [hres] at h

section Claims3

variable {ε : Type u} {ι : Type v} {κ : Type w} {σ : Type x}

/-- Claim C6: when `--port` is not passed to the local subcommand, clap
fills in its declared default 0, and the first (and only) constructor
call is `Client::new` with requested remote port 0. -/
theorem c6_default_port_zero (ext : ExtLib ε ι κ σ) (local_port : Nat)
    (local_host : Option String) («to» : String) (secret : Option String) :
    (run ext (mkLocal local_port local_host «to» none secret)).2.head? =
      some (.clientNew (local_host.getD "localhost") local_port «to» 0
        secret) := by
  simp only [mkLocal, Option.getD_none]
  rcases hc : ext.clientNew (local_host.getD "localhost") local_port «to» 0
      secret with e | c
  · simp [run, hc]
  · rcases hl : ext.clientListen c with e | u <;> simp [run, hc, hl]

/-- Claim C7: the control and tunnels bind addresses are independent
options — each parsed field depends only on its own optional argument —
and when neither is given both default to the same address,
`"0.0.0.0"`. -/
theorem c7_bind_addr_defaults (min_port max_port : Option Nat)
    (secret : Option String) (control_addr tunnels_addr : Option String) :
    mkServer min_port max_port secret control_addr tunnels_addr =
      .Server ⟨min_port.getD 1024, max_port.getD 65535, secret,
        control_addr.getD "0.0.0.0", tunnels_addr.getD "0.0.0.0"⟩ ∧
    mkServer min_port max_port secret none none =
      .Server ⟨min_port.getD 1024, max_port.getD 65535, secret,
        "0.0.0.0", "0.0.0.0"⟩ :=
  ⟨rfl, rfl⟩

/-- Claim C8: the two `.unwrap()` calls on the parsed addresses never
panic: on no input and no external-library behaviour does `run` reach
the arm modelling an `unwrap` of an `Err`. -/
theorem c8_unwraps_never_panic (ext : ExtLib ε ι κ σ) (cmd : Command) :
    (run ext cmd).1.isPanicked = false := by
  cases cmd with
  | Local a =>
    rcases hc : ext.clientNew a.local_host a.local_port a.«to» a.port
        a.secret with e | c
    · simp [run, hc, RunResult.isPanicked]
    · rcases hl : ext.clientListen c with e | u <;>
        simp [run, hc, hl, RunResult.isPanicked]
  | Server b =>
    by_cases h : b.max_port < b.min_port
    · simp [run_server_empty ext b h, RunResult.isPanicked]
    · have hle := Nat.not_lt.mp h
      rcases hc : ext.parseIp b.control_addr with _ | ipc
      · simp [run_server_bad_control ext b hle hc, RunResult.isPanicked]
      · rcases ht : ext.parseIp b.tunnels_addr with _ | ipt
        · simp [run_server_bad_tunnels ext b hle hc ht,
            RunResult.isPanicked]
        · rw [run_server_listen ext b hle hc ht]
          rcases hres : ext.serverListen
              (ext.serverNew ⟨b.min_port, b.max_port⟩ b.secret ipc ipt)
            with e | u <;> simp [hres, RunResult.isPanicked]

/-- Claim C9: the local subcommand does no pre-flight validation: for
every argument record, however malformed its strings, the first action is
the `Client::new` call carrying those strings unchanged, and the result
is never a configuration exit. -/
theorem c9_local_no_preflight (ext : ExtLib ε ι κ σ) (a : LocalArgs) :
    (run ext (.Local a)).2.head? =
      some (.clientNew a.local_host a.local_port a.«to» a.port a.secret) ∧
    (run ext (.Local a)).1.isConfigExit = false := by
  rcases hc : ext.clientNew a.local_host a.local_port a.«to» a.port a.secret
    with e | c
  · simp [run, hc, RunResult.isConfigExit]
  · rcases hl : ext.clientListen c with e | u <;>
      simp [run, hc, hl, RunResult.isConfigExit]

/-- Claim C10: with neither `--min-port` nor `--max-port` given, clap
fills in the declared defaults 1024 and 65535; that range is non-empty
under `RangeInclusive::is_empty`, so `run` never takes the empty-range
configuration exit on the default range. -/
theorem c10_default_range (ext : ExtLib ε ι κ σ) (secret : Option String)
    (control_addr tunnels_addr : Option String) :
    mkServer none none secret control_addr tunnels_addr =
      .Server ⟨1024, 65535, secret, control_addr.getD "0.0.0.0",
        tunnels_addr.getD "0.0.0.0"⟩ ∧
    RangeInclusive.isEmpty ⟨1024, 65535⟩ = false ∧
    (((run ext (mkServer none none secret control_addr tunnels_addr)).1 =
        .configExit "port range is empty") ↔ False) := by
  refine ⟨rfl, by decide, ?_⟩
  exact run_server_not_empty_exit ext
    ⟨1024, 65535, secret, control_addr.getD "0.0.0.0",
      tunnels_addr.getD "0.0.0.0"⟩ (by norm_num : (1024 : Nat) ≤ 65535)

end Claims3
